import Mathlib

/-!
A shallow embedding of tele_scope.py.

This file embeds the migration workflow of `src/python/tele_scope.py` into
Lean.  The git commands invoked through GitPython are modelled by an
environment (`Env`) that fixes the outcome of every underlying git
operation; the `TeleScope` class becomes a structure of the same fields,
and each method becomes a function threading the repository state
(`St`: current branch and number of stash entries) and returning the list
of git operations that completed (`List GitOp`) together with the raised
exception, if any (`Option Err`).
-/

namespace TeleScopePy

/-- One git operation that completed successfully against the repository. -/
inductive GitOp where
  | stash
  | checkout (branch : String)
  | stashApply
  | pull (remote : String)
  | add (path : String)
  | commit (author : Option String) (message : Option String)
  | push
  | headReset
  | forceCheckout
  | rebase (branch : String)
  | stashDrop
  deriving DecidableEq, Repr

/-- The exceptions the script can raise.  `branchError`, `stashError`,
`commitError`, `remoteError` and `conflictError` embed the five exception
classes defined at the top of the file; `typeError` and `attributeError`
embed the Python builtins; `gitCommandError` embeds an uncaught
`git.GitCommandError`. -/
inductive Err where
  | branchError (msg : String)
  | stashError (msg : String)
  | commitError (msg : String)
  | remoteError (msg : String)
  | conflictError (msg : String)
  | typeError (msg : String)
  | attributeError (msg : String)
  | gitCommandError (msg : String)
  deriving DecidableEq, Repr

/-- The outcome of every underlying git command, fixed in advance: this is
the oracle for the external version-control system.  `Except.error msg`
means the command raises `git.GitCommandError` with message `msg`. -/
structure Env where
  /-- outcome of `repo.git.stash()`; on success, the output string. -/
  stashResult : Except String String
  /-- whether `repo.heads[b]` exists (otherwise indexing raises IndexError). -/
  branchExists : String → Bool
  /-- outcome of `branches[b].checkout()` when the branch exists. -/
  checkoutResult : String → Except String Unit
  /-- outcome of `repo.git.stash("apply")`. -/
  applyResult : Except String Unit
  /-- outcome of `repo.git.add(p)` for path `p`. -/
  addResult : String → Except String Unit
  /-- outcome of `repo.git.commit(...)`. -/
  commitResult : Except String Unit
  /-- outcome of `remote.push()`. -/
  pushResult : Except String Unit
  /-- outcome of `remotes[r].pull()` when the remote exists. -/
  pullResult : Except String Unit
  /-- outcome of `repo.git.rebase(b)`. -/
  rebaseResult : Except String Unit
  /-- outcome of `repo.head.reset()`. -/
  resetResult : Except String Unit
  /-- outcome of `repo.git.stash("drop")`. -/
  dropResult : Except String Unit
  /-- whether `repo.remotes[r]` exists (otherwise indexing raises IndexError). -/
  remoteExists : String → Bool
  /-- `os.path.abspath`. -/
  abspath : String → String
  /-- `repo.working_dir`. -/
  workingDir : String

/-- The mutable repository state the workflow acts on: the checked-out
branch and the number of entries in the stash list. -/
structure St where
  branch : String
  stashes : Nat
  deriving DecidableEq, Repr

/-- Result of one method call: the repository state afterwards, the git
operations that completed during the call, and the exception raised. -/
structure StepResult where
  st : St
  ops : List GitOp
  err : Option Err
  deriving Repr

/-- The `TeleScope` instance: the fields set up by `__init__` plus the
mutable `reapply` flag. -/
structure TeleScope where
  thisbranch : String
  upstream : String
  remote : Option String
  user : Option String
  email : Option String
  message : Option String
  norebase : Bool
  noclear : Bool
  reapply : Bool
  pull : Bool
  deriving DecidableEq, Repr

/-- Result of `applyChanges` (the one method that mutates the instance,
through `self.reapply`). -/
structure RunResult where
  ts : TeleScope
  st : St
  ops : List GitOp
  err : Option Err
  deriving Repr

/-- Embeds `BranchError.__init__`, which reads
`super(BranchError, self).__init(message)`: the attribute `__init`
(name-mangled to `_BranchError__init`) does not exist on the super object,
so every attempt to construct a `BranchError` raises `AttributeError`
instead, and the intended message is lost. -/
def raiseBranchError (_message : String) : Err :=
  Err.attributeError "super object has no attribute _BranchError__init"

/-- Embeds `TeleScope.stashChanges`: run `git stash`, wrap a command error
as `StashError`, and treat the output "No local changes to save" as a
`StashError` as well.  A stash entry is created exactly when the command
succeeds with changes to save. -/
def stashChanges (env : Env) (s : St) : StepResult :=
  match env.stashResult with
  | .error msg => { st := s, ops := [], err := some (Err.stashError msg) }
  | .ok result =>
    if result = "No local changes to save" then
      { st := s, ops := [GitOp.stash], err := some (Err.stashError result) }
    else
      { st := { s with stashes := s.stashes + 1 }, ops := [GitOp.stash], err := none }

/-- Embeds `TeleScope.switchBranch`: index `repo.heads` by name (an absent
name raises IndexError, turned into a branch-not-found `BranchError`) and
check the branch out (a `GitCommandError` is also turned into a
`BranchError`).  The `except TypeError` arm of the source is unreachable
here because `branch` is always a string.  Note both error arms go through
the broken `BranchError` constructor, `raiseBranchError`. -/
def switchBranch (env : Env) (branch : String) (s : St) : StepResult :=
  if env.branchExists branch then
    match env.checkoutResult branch with
    | .ok _ => { st := { s with branch := branch }, ops := [GitOp.checkout branch], err := none }
    | .error msg => { st := s, ops := [], err := some (raiseBranchError msg) }
  else
    { st := s, ops := [],
      err := some (raiseBranchError ("Branch " ++ branch ++ " not found.")) }

/-- Embeds `TeleScope.pullFromRemote`: index `repo.remotes` by the remote
(IndexError becomes a remote-not-found `RemoteError`) and pull, wrapping
any failure as `RemoteError`.  Note: no other method or the main script
ever calls this function. -/
def pullFromRemote (env : Env) (remote : Option String) (s : St) : StepResult :=
  match remote with
  | none =>
    { st := s, ops := [], err := some (Err.remoteError "Remote None not found") }
  | some r =>
    if env.remoteExists r then
      match env.pullResult with
      | .ok _ => { st := s, ops := [GitOp.pull r], err := none }
      | .error msg =>
        { st := s, ops := [], err := some (Err.remoteError ("Problem with pull:\n" ++ msg)) }
    else
      { st := s, ops := [], err := some (Err.remoteError ("Remote " ++ r ++ " not found")) }

/-- Embeds the author-string computation in `TeleScope.applyChanges`:
if `self.email is None` the author is `self.user` (which may itself be
`None`); otherwise if `self.user is None` the author is `self.email`;
otherwise "user <email>". -/
def authorString (user email : Option String) : Option String :=
  match email with
  | none => user
  | some e =>
    match user with
    | none => some e
    | some u => some (u ++ " <" ++ e ++ ">")

/-- Embeds the loop `for newfile in files: self.repo.git.add(os.path.abspath(newfile))`
with its surrounding try/except: a `GitCommandError` becomes a
`CommitError` and stops the loop; returns the adds that completed and the
error, if any. -/
def addFiles (env : Env) : List String → List GitOp × Option Err
  | [] => ([], none)
  | f :: rest =>
    match env.addResult (env.abspath f) with
    | .error msg => ([], some (Err.commitError msg))
    | .ok _ =>
      match addFiles env rest with
      | (ops, e) => (GitOp.add (env.abspath f) :: ops, e)

/-- Embeds `TeleScope.backoutChanges`: `self.repo.head.reset()` followed by
`self.active_branch.checkout(force=True)`.  The `TeleScope` instance has
no attribute `active_branch` (only `thisbranch`), so after the reset the
second line always raises `AttributeError`; the force checkout never
happens. -/
def backoutChanges (env : Env) (s : St) : StepResult :=
  match env.resetResult with
  | .error msg => { st := s, ops := [], err := some (Err.gitCommandError msg) }
  | .ok _ =>
    { st := s, ops := [GitOp.headReset],
      err := some (Err.attributeError "TeleScope instance has no attribute active_branch") }

/-- Embeds the tail of `applyChanges` after the push block:
`if self.reapply: self.backoutChanges()`.  `ops` is the list of operations
accumulated so far and `st` the repository state they produced. -/
def reapplyStep (env : Env) (ts : TeleScope) (st : St) (ops : List GitOp) : RunResult :=
  if ts.reapply then
    let rB := backoutChanges env st
    { ts := ts, st := rB.st, ops := ops ++ rB.ops, err := rB.err }
  else
    { ts := ts, st := st, ops := ops, err := none }

/-- Embeds the part of `TeleScope.applyChanges` that follows the stash
apply, for an instance `ts2` whose `reapply` flag is already resolved and
a resolved file list: add each file (wrapping a `GitCommandError` as
`CommitError`), compute the author string, commit, push when a remote is
configured (wrapping a `GitCommandError` as `RemoteError`), and finally
call `backoutChanges` when `self.reapply` is set.  `ops2` is the list of
operations performed before this point and `st` the repository state they
produced. -/
def applyCore (env : Env) (ts2 : TeleScope) (fileList : List String) (st : St)
    (ops2 : List GitOp) : RunResult :=
  match addFiles env fileList with
  | (opsA, some e) => { ts := ts2, st := st, ops := ops2 ++ opsA, err := some e }
  | (opsA, none) =>
    let author := authorString ts2.user ts2.email
    match env.commitResult with
    | .error msg =>
      { ts := ts2, st := st, ops := ops2 ++ opsA, err := some (Err.commitError msg) }
    | .ok _ =>
      let ops3 := ops2 ++ opsA ++ [GitOp.commit author ts2.message]
      match ts2.remote with
      | some _ =>
        match env.pushResult with
        | .error msg =>
          { ts := ts2, st := st, ops := ops3,
            err := some (Err.remoteError ("Problem with push:\n" ++ msg)) }
        | .ok _ => reapplyStep env ts2 st (ops3 ++ [GitOp.push])
      | none => reapplyStep env ts2 st ops3

/-- Embeds `TeleScope.applyChanges(files)`: switch to the upstream branch,
apply the stash (a `GitCommandError` becomes `StashError`), choose the
file list (`files is None` means the working-tree root, otherwise the
given list with `self.reapply = True`), then continue with `applyCore`. -/
def applyChanges (env : Env) (ts : TeleScope) (files : Option (List String)) (s : St) :
    RunResult :=
  let r1 := switchBranch env ts.upstream s
  match r1.err with
  | some e => { ts := ts, st := r1.st, ops := r1.ops, err := some e }
  | none =>
    match env.applyResult with
    | .error msg =>
      { ts := ts, st := r1.st, ops := r1.ops, err := some (Err.stashError msg) }
    | .ok _ =>
      let ops2 := r1.ops ++ [GitOp.stashApply]
      match files with
      | none => applyCore env ts [env.workingDir] r1.st ops2
      | some fs => applyCore env { ts with reapply := true } fs r1.st ops2

/-- Embeds the final block of `switchAndRebase`: warn and keep the stash if
`noclear`, otherwise run `git stash drop` (the drop is not wrapped in a
try, so a `GitCommandError` there propagates as is).  `ops` is the list of
operations accumulated so far and `st` the repository state they
produced; a successful drop removes the most recent stash entry. -/
def dropStashStep (env : Env) (ts : TeleScope) (st : St) (ops : List GitOp) : StepResult :=
  if ts.noclear then
    { st := st, ops := ops, err := none }
  else
    match env.dropResult with
    | .ok _ =>
      { st := { st with stashes := st.stashes - 1 },
        ops := ops ++ [GitOp.stashDrop], err := none }
    | .error msg =>
      { st := st, ops := ops, err := some (Err.gitCommandError msg) }

/-- Embeds `TeleScope.switchAndRebase`: switch back to the original branch,
rebase onto the upstream branch unless `norebase` (a `GitCommandError`
becomes `ConflictError`), then drop the stash unless `noclear`. -/
def switchAndRebase (env : Env) (ts : TeleScope) (s : St) : StepResult :=
  let r1 := switchBranch env ts.thisbranch s
  match r1.err with
  | some e => { st := r1.st, ops := r1.ops, err := some e }
  | none =>
    if ts.norebase then
      dropStashStep env ts r1.st r1.ops
    else
      match env.rebaseResult with
      | .ok _ => dropStashStep env ts r1.st (r1.ops ++ [GitOp.rebase ts.upstream])
      | .error msg =>
        { st := r1.st, ops := r1.ops, err := some (Err.conflictError ("Problem in rebase:\n" ++ msg)) }

/-- The three-phase workflow as driven by the main script:
`stashChanges(); applyChanges(files); switchAndRebase()`, stopping at the
first raised exception. -/
def run (env : Env) (ts : TeleScope) (files : Option (List String)) (s : St) : RunResult :=
  let r1 := stashChanges env s
  match r1.err with
  | some e => { ts := ts, st := r1.st, ops := r1.ops, err := some e }
  | none =>
    let r2 := applyChanges env ts files r1.st
    match r2.err with
    | some e => { ts := r2.ts, st := r2.st, ops := r1.ops ++ r2.ops, err := some e }
    | none =>
      let r3 := switchAndRebase env r2.ts r2.st
      { ts := r2.ts, st := r3.st, ops := r1.ops ++ r2.ops ++ r3.ops, err := r3.err }

/-- The Python class of the object passed as `repo`: the exact class
`git.Repo`, a proper subclass of it, or some other class. -/
inductive PyClass where
  | gitRepo
  | gitRepoSubclass
  | otherClass
  deriving DecidableEq, Repr

/-- The config reader returned by `repo.config_reader()`. -/
structure ConfigReader where
  hasOption : String → String → Bool
  getValue : String → String → String

/-- Embeds the Python `str.split` with a one-character separator, through
the character list of the string so that concrete instances reduce by
evaluation. -/
def pySplit (s : String) (sep : Char) : List String :=
  (s.data.splitOn sep).map fun cs => String.mk cs

/-- Embeds `TeleScope.getOption`: split the dotted name into section and
option and read the config value only when the explicit `value` is
`None`.  Every call site passes a two-part dotted name; any other shape
would make the unpacking assignment in the source raise, and is not
reachable here. -/
def getOption (reader : ConfigReader) (name : String) (value : Option String) :
    Option String :=
  match pySplit name (Char.ofNat 46) with
  | [sec, opt] =>
    if value = none ∧ reader.hasOption sec opt then some (reader.getValue sec opt)
    else value
  | _ => value

/-- Embeds `TeleScope.__init__`: reject any `repo` whose class is not
exactly `git.Repo` with a `TypeError` as the very first statement, then
capture the active branch, resolve user and email through `getOption`,
and initialise the flags (`reapply` starts `False`). -/
def TeleScope.init (repoClass : PyClass) (activeBranch : String) (reader : ConfigReader)
    (upstream : String) (remote : Option String)
    (user email message : Option String)
    (norebase noclear pull : Bool) : Except Err TeleScope :=
  if repoClass ≠ PyClass.gitRepo then
    Except.error (Err.typeError "repo must be a Git repository object.")
  else
    Except.ok
      { thisbranch := activeBranch
        upstream := upstream
        remote := remote
        user := getOption reader "user.name" user
        email := getOption reader "user.email" email
        message := message
        norebase := norebase
        noclear := noclear
        reapply := false
        pull := pull }

/- Embeds the class `ExitStatus`:
`SUCCESS, BRANCHERROR, STASHERROR, COMMITERROR, REMOTERROR, CONFLICTS = range(6)`. -/
namespace ExitStatus

def SUCCESS : Nat := 0
def BRANCHERROR : Nat := 1
def STASHERROR : Nat := 2
def COMMITERROR : Nat := 3
def REMOTERROR : Nat := 4
def CONFLICTS : Nat := 5

end ExitStatus

/-- Embeds the Python `str.lower()` used on the remote argument: lower-case
every character.  Defined through the character list of the string so that
concrete instances reduce by evaluation. -/
def pyLower (s : String) : String := ⟨s.data.map Char.toLower⟩

/-- The parsed command-line arguments of the script, with their argparse
defaults: `branch` defaults to "master", `remote` to "origin", `files` to
the empty list (`nargs` star), and the flags to false. -/
structure Args where
  norebase : Bool
  noclear : Bool
  email : Option String
  message : Option String
  branch : String
  pull : Bool
  remote : String
  user : Option String
  files : List String

/-- The process-level surroundings of the main script: the git-command
oracle, whether the working directory is inside a git repository, the
name of the active branch, the config reader, and the number of stash
entries before the run. -/
structure MainEnv where
  env : Env
  inGitRepo : Bool
  activeBranch : String
  reader : ConfigReader
  stashes0 : Nat

/-- Embeds the `__main__` block: exit `BRANCHERROR` when not inside a git
repository; resolve the remote (the case-insensitive literal "none"
disables push, an unknown remote exits `REMOTERROR`); construct the
`TeleScope` (the repo object constructed by the script has class exactly
`git.Repo`) and run the three phases on `args.files` — always a list,
never `None`.  Any exception is caught, its message written to stderr,
and the script then falls off the end, so the process exits 0; only the
fully successful path calls `sys.exit(status.SUCCESS)`. -/
def teleScopeMain (menv : MainEnv) (args : Args) : Nat :=
  if ¬ menv.inGitRepo then ExitStatus.BRANCHERROR
  else if pyLower args.remote ≠ "none" ∧ ¬ menv.env.remoteExists args.remote then
    ExitStatus.REMOTERROR
  else
    let tsRemote : Option String :=
      if pyLower args.remote ≠ "none" then some args.remote else none
    match TeleScope.init PyClass.gitRepo menv.activeBranch menv.reader
        args.branch tsRemote args.user args.email args.message
        args.norebase args.noclear args.pull with
    | .error _ => 0
    | .ok ts =>
      let r := run menv.env ts (some args.files)
        { branch := menv.activeBranch, stashes := menv.stashes0 }
      match r.err with
      | some _ => 0
      | none => ExitStatus.SUCCESS

end TeleScopePy

namespace TeleScopePy

/-- A git environment in which every underlying command succeeds. -/
def envAllOk : Env := {
  stashResult := .ok "Saved working directory and index state WIP"
  branchExists := fun _ => true
  checkoutResult := fun _ => .ok ()
  applyResult := .ok ()
  addResult := fun _ => .ok ()
  commitResult := .ok ()
  pushResult := .ok ()
  pullResult := .ok ()
  rebaseResult := .ok ()
  resetResult := .ok ()
  dropResult := .ok ()
  remoteExists := fun _ => true
  abspath := fun p => p
  workingDir := "/repo" }

/-- The all-ok environment except that `git stash` itself fails. -/
def envStashFail : Env := { envAllOk with stashResult := .error "stash failed" }

/-- The all-ok environment except that the push is rejected. -/
def envPushFail : Env := { envAllOk with pushResult := .error "rejected" }

/-- The all-ok environment except that no branch exists. -/
def envNoBranches : Env := { envAllOk with branchExists := fun _ => false }

/-- A typical instance: migrating from branch feature to master, pushing to
origin, with an explicit identity and commit message and default flags. -/
def tsFull : TeleScope := {
  thisbranch := "feature", upstream := "master", remote := some "origin",
  user := some "Ann", email := some "ann@example.com", message := some "msg",
  norebase := false, noclear := false, reapply := false, pull := false }

/-- The instance main builds from the default command line inside a
repository whose active branch is feature and whose config has no
user section. -/
def tsMainDefault : TeleScope := {
  thisbranch := "feature", upstream := "master", remote := some "origin",
  user := none, email := none, message := none,
  norebase := false, noclear := false, reapply := false, pull := false }

/-- `tsFull` without any committer identity. -/
def tsNoIdentity : TeleScope := { tsFull with user := none, email := none }

/-- Initial repository state: on branch feature with an empty stash list. -/
def st0 : St := { branch := "feature", stashes := 0 }

/-- A config reader with no options set. -/
def defaultReader : ConfigReader := { hasOption := fun _ _ => false, getValue := fun _ _ => "" }

/-- The default parsed command line: no files, no flags, no identity. -/
def argsDefault : Args := {
  norebase := false, noclear := false, email := none, message := none,
  branch := "master", pull := false, remote := "origin", user := none, files := [] }

/-- Process surroundings for a run of the main script in which `git stash`
fails. -/
def mEnvStashFail : MainEnv := {
  env := envStashFail, inGitRepo := true, activeBranch := "feature",
  reader := defaultReader, stashes0 := 0 }

end TeleScopePy

namespace TeleScopePy

theorem stashChanges_ok (env : Env) (s : St) (h : (stashChanges env s).err = none) :
    (stashChanges env s).st.stashes = s.stashes + 1 ∧
    (stashChanges env s).ops = [GitOp.stash] := by
  unfold stashChanges at h ⊢
  split at h <;> simp_all
  split at h <;> simp_all

theorem stashChanges_err_kind (env : Env) (s : St) (e : Err)
    (h : (stashChanges env s).err = some e) : ∃ m, e = Err.stashError m := by
  unfold stashChanges at h
  split at h <;> simp_all
  · exact ⟨_, h.symm⟩
  · split at h <;> simp_all
    exact ⟨_, h.symm⟩

theorem stashChanges_ops_mem (env : Env) (s : St) :
    ∀ op ∈ (stashChanges env s).ops, op = GitOp.stash := by
  unfold stashChanges
  split <;> simp_all
  split <;> simp_all

theorem switchBranch_stashes (env : Env) (b : String) (s : St) :
    (switchBranch env b s).st.stashes = s.stashes := by
  unfold switchBranch
  split <;> try simp
  split <;> simp

theorem switchBranch_ops_mem (env : Env) (b : String) (s : St) :
    ∀ op ∈ (switchBranch env b s).ops, op = GitOp.checkout b := by
  unfold switchBranch
  split <;> try simp
  split <;> simp

theorem addFiles_ops_mem (env : Env) (fs : List String) :
    ∀ op ∈ (addFiles env fs).1, ∃ p, op = GitOp.add p := by
  induction fs with
  | nil => simp [addFiles]
  | cons f rest ih =>
    unfold addFiles
    split <;> simp_all

theorem addFiles_err_kind (env : Env) (fs : List String) (e : Err)
    (h : (addFiles env fs).2 = some e) : ∃ m, e = Err.commitError m := by
  induction fs with
  | nil => simp [addFiles] at h
  | cons f rest ih =>
    unfold addFiles at h
    split at h <;> simp_all
    exact ⟨_, h.symm⟩

theorem backoutChanges_st (env : Env) (s : St) : (backoutChanges env s).st = s := by
  unfold backoutChanges
  split <;> simp

theorem backoutChanges_ops_mem (env : Env) (s : St) :
    ∀ op ∈ (backoutChanges env s).ops, op = GitOp.headReset := by
  unfold backoutChanges
  split <;> simp

theorem backoutChanges_err (env : Env) (s : St) : (backoutChanges env s).err.isSome := by
  unfold backoutChanges
  split <;> simp

theorem reapplyStep_st (env : Env) (ts : TeleScope) (st : St) (ops : List GitOp) :
    (reapplyStep env ts st ops).st = st := by
  unfold reapplyStep
  split <;> simp [backoutChanges_st]

theorem reapplyStep_ts (env : Env) (ts : TeleScope) (st : St) (ops : List GitOp) :
    (reapplyStep env ts st ops).ts = ts := by
  unfold reapplyStep
  split <;> simp

theorem reapplyStep_ops_mem (env : Env) (ts : TeleScope) (st : St) (ops : List GitOp) :
    ∀ op ∈ (reapplyStep env ts st ops).ops, op ∈ ops ∨ op = GitOp.headReset := by
  unfold reapplyStep
  have hbo := backoutChanges_ops_mem env st
  split <;> simp_all
  intro op hop
  rcases hop with hop | hop
  · exact Or.inl hop
  · exact Or.inr (hbo op hop)

theorem reapplyStep_ops_sub (env : Env) (ts : TeleScope) (st : St) (ops : List GitOp) :
    ∀ op ∈ ops, op ∈ (reapplyStep env ts st ops).ops := by
  unfold reapplyStep
  split <;> simp_all

theorem reapplyStep_ok (env : Env) (ts : TeleScope) (st : St) (ops : List GitOp)
    (h : (reapplyStep env ts st ops).err = none) :
    ts.reapply = false ∧ (reapplyStep env ts st ops).ops = ops := by
  unfold reapplyStep at h ⊢
  have hbo := backoutChanges_err env st
  split at h <;> simp_all

theorem reapplyStep_err_kind (env : Env) (ts : TeleScope) (st : St) (ops : List GitOp) (e : Err)
    (h : (reapplyStep env ts st ops).err = some e) :
    e = Err.attributeError "TeleScope instance has no attribute active_branch" ∨
    ∃ m, e = Err.gitCommandError m := by
  unfold reapplyStep at h
  split at h
  · unfold backoutChanges at h
    split at h
    · simp at h
      exact Or.inr ⟨_, h.symm⟩
    · simp at h
      exact Or.inl h.symm
  · simp at h

theorem dropStashStep_stashes_err (env : Env) (ts : TeleScope) (st : St) (ops : List GitOp)
    (h : (dropStashStep env ts st ops).err.isSome) :
    (dropStashStep env ts st ops).st = st ∧ (dropStashStep env ts st ops).ops = ops := by
  unfold dropStashStep at h ⊢
  split at h <;> simp_all
  split at h <;> simp_all

theorem dropStashStep_drop_mem (env : Env) (ts : TeleScope) (st : St) (ops : List GitOp)
    (hops : GitOp.stashDrop ∉ ops) (h : GitOp.stashDrop ∈ (dropStashStep env ts st ops).ops) :
    (dropStashStep env ts st ops).err = none ∧
    (dropStashStep env ts st ops).ops = ops ++ [GitOp.stashDrop] ∧
    ts.noclear = false := by
  unfold dropStashStep at h ⊢
  split at h <;> simp_all
  split at h <;> simp_all

theorem dropStashStep_err_kind (env : Env) (ts : TeleScope) (st : St) (ops : List GitOp) (e : Err)
    (h : (dropStashStep env ts st ops).err = some e) : ∃ m, e = Err.gitCommandError m := by
  unfold dropStashStep at h
  split at h <;> simp_all
  split at h <;> simp_all
  exact ⟨_, h.symm⟩

theorem dropStashStep_ops_mem (env : Env) (ts : TeleScope) (st : St) (ops : List GitOp) :
    ∀ op ∈ (dropStashStep env ts st ops).ops, op ∈ ops ∨ op = GitOp.stashDrop := by
  unfold dropStashStep
  split <;> simp_all
  split <;> simp_all

theorem applyCore_st (env : Env) (ts2 : TeleScope) (fileList : List String) (st : St)
    (ops2 : List GitOp) : (applyCore env ts2 fileList st ops2).st = st := by
  rcases haf : addFiles env fileList with ⟨opsA, eA⟩
  cases eA <;> simp only [applyCore, haf]
  all_goals try simp
  all_goals rcases hc : env.commitResult with msg | u <;> simp [hc]
  all_goals rcases hrm : ts2.remote with _ | rem <;> simp [hrm, reapplyStep_st]
  all_goals rcases hp : env.pushResult with msg | u2 <;> simp [hp, reapplyStep_st]

theorem applyCore_ts (env : Env) (ts2 : TeleScope) (fileList : List String) (st : St)
    (ops2 : List GitOp) : (applyCore env ts2 fileList st ops2).ts = ts2 := by
  rcases haf : addFiles env fileList with ⟨opsA, eA⟩
  cases eA <;> simp only [applyCore, haf]
  all_goals try simp
  all_goals rcases hc : env.commitResult with msg | u <;> simp [hc]
  all_goals rcases hrm : ts2.remote with _ | rem <;> simp [hrm, reapplyStep_ts]
  all_goals rcases hp : env.pushResult with msg | u2 <;> simp [hp, reapplyStep_ts]

theorem applyCore_not_mem (env : Env) (ts2 : TeleScope) (fileList : List String) (st : St)
    (ops2 : List GitOp) (o : GitOp)
    (ho2 : o ∉ ops2) (hadd : ∀ p, o ≠ GitOp.add p)
    (hcommit : ∀ a m, o ≠ GitOp.commit a m)
    (hpush : o ≠ GitOp.push) (hreset : o ≠ GitOp.headReset) :
    o ∉ (applyCore env ts2 fileList st ops2).ops := by
  rcases haf : addFiles env fileList with ⟨opsA, eA⟩
  have hA : o ∉ opsA := by
    intro hm
    have hall := addFiles_ops_mem env fileList
    rw [haf] at hall
    rcases hall o hm with ⟨p, hp⟩
    exact hadd p hp
  have hr : ∀ ops, o ∉ ops → o ∉ (reapplyStep env ts2 st ops).ops := by
    intro ops hops hm
    rcases reapplyStep_ops_mem env ts2 st ops o hm with hh | hh
    · exact hops hh
    · exact hreset hh
  cases eA <;> simp only [applyCore, haf]
  · rcases hc : env.commitResult with msg | u <;> simp only [hc]
    · simp [List.mem_append, ho2, hA]
    · rcases hrm : ts2.remote with _ | rem <;> simp only [hrm]
      · apply hr
        simp [List.mem_append, ho2, hA, hcommit]
      · rcases hp : env.pushResult with msg | u2 <;> simp only [hp]
        · simp [List.mem_append, ho2, hA, hcommit]
        · apply hr
          simp [List.mem_append, ho2, hA, hcommit, hpush]
  · simp [List.mem_append, ho2, hA]

theorem applyCore_ok_push (env : Env) (ts2 : TeleScope) (fileList : List String) (st : St)
    (ops2 : List GitOp) (h : (applyCore env ts2 fileList st ops2).err = none)
    (hrem : ts2.remote.isSome) :
    GitOp.push ∈ (applyCore env ts2 fileList st ops2).ops := by
  rcases haf : addFiles env fileList with ⟨opsA, eA⟩
  cases eA <;> simp only [applyCore, haf] at h ⊢
  · rcases hc : env.commitResult with msg | u <;> simp only [hc] at h ⊢
    · simp at h
    · rcases hrm : ts2.remote with _ | rem
      · rw [hrm] at hrem
        simp at hrem
      · simp only [hrm] at h ⊢
        rcases hp : env.pushResult with msg | u2 <;> simp only [hp] at h ⊢
        · simp at h
        · exact reapplyStep_ops_sub env ts2 st _ _ (by simp)
  · simp at h

theorem applyCore_remoteError (env : Env) (ts2 : TeleScope) (fileList : List String) (st : St)
    (ops2 : List GitOp) (m : String) (ho2 : GitOp.headReset ∉ ops2)
    (h : (applyCore env ts2 fileList st ops2).err = some (Err.remoteError m)) :
    GitOp.commit (authorString ts2.user ts2.email) ts2.message ∈
      (applyCore env ts2 fileList st ops2).ops ∧
    GitOp.headReset ∉ (applyCore env ts2 fileList st ops2).ops := by
  rcases haf : addFiles env fileList with ⟨opsA, eA⟩
  have hA : GitOp.headReset ∉ opsA := by
    intro hm
    have hall := addFiles_ops_mem env fileList
    rw [haf] at hall
    rcases hall _ hm with ⟨p, hp⟩
    simp at hp
  cases eA <;> simp only [applyCore, haf] at h ⊢
  · rcases hc : env.commitResult with msg | u <;> simp only [hc] at h ⊢
    · simp at h
    · rcases hrm : ts2.remote with _ | rem <;> simp only [hrm] at h ⊢
      · rcases reapplyStep_err_kind env ts2 st _ _ h with hk | ⟨m2, hk⟩ <;> simp at hk
      · rcases hp : env.pushResult with msg | u2 <;> simp only [hp] at h ⊢
        · simp [List.mem_append, ho2, hA]
        · rcases reapplyStep_err_kind env ts2 st _ _ h with hk | ⟨m2, hk⟩ <;> simp at hk
  · rename_i e
    rcases addFiles_err_kind env fileList e (by rw [haf]) with ⟨m2, hk⟩
    simp [hk] at h

theorem switchBranch_err_kind (env : Env) (b : String) (s : St) (e : Err)
    (h : (switchBranch env b s).err = some e) :
    e = Err.attributeError "super object has no attribute _BranchError__init" := by
  unfold switchBranch at h
  split at h <;> simp_all [raiseBranchError]
  split at h <;> simp_all [raiseBranchError]

theorem applyChanges_st (env : Env) (ts : TeleScope) (files : Option (List String)) (s : St) :
    (applyChanges env ts files s).st.stashes = s.stashes := by
  have hsb := switchBranch_stashes env ts.upstream s
  simp only [applyChanges]
  rcases hsw : (switchBranch env ts.upstream s).err with _ | e <;> simp only [hsw]
  · rcases ha : env.applyResult with msg | u <;> simp only [ha]
    · simp [hsb]
    · cases files with
      | none => simp [applyCore_st, hsb]
      | some fs => simp [applyCore_st, hsb]
  · simp [hsb]

theorem applyChanges_not_mem (env : Env) (ts : TeleScope) (files : Option (List String))
    (s : St) (o : GitOp)
    (hco : ∀ b, o ≠ GitOp.checkout b) (hsa : o ≠ GitOp.stashApply)
    (hadd : ∀ p, o ≠ GitOp.add p) (hcommit : ∀ a m, o ≠ GitOp.commit a m)
    (hpush : o ≠ GitOp.push) (hreset : o ≠ GitOp.headReset) :
    o ∉ (applyChanges env ts files s).ops := by
  have h1 : o ∉ (switchBranch env ts.upstream s).ops :=
    fun hm => hco _ (switchBranch_ops_mem env ts.upstream s _ hm)
  have h2 : o ∉ (switchBranch env ts.upstream s).ops ++ [GitOp.stashApply] := by
    simp [List.mem_append, h1, hsa]
  simp only [applyChanges]
  rcases hsw : (switchBranch env ts.upstream s).err with _ | e <;> simp only [hsw]
  · rcases ha : env.applyResult with msg | u <;> simp only [ha]
    · simp [h1]
    · cases files with
      | none => exact applyCore_not_mem env ts _ _ _ o h2 hadd hcommit hpush hreset
      | some fs => exact applyCore_not_mem env _ _ _ _ o h2 hadd hcommit hpush hreset
  · simp [h1]

theorem applyChanges_ok_push (env : Env) (ts : TeleScope) (files : Option (List String))
    (s : St) (h : (applyChanges env ts files s).err = none) (hrem : ts.remote.isSome) :
    GitOp.push ∈ (applyChanges env ts files s).ops := by
  simp only [applyChanges] at h ⊢
  rcases hsw : (switchBranch env ts.upstream s).err with _ | e <;> simp only [hsw] at h ⊢
  · rcases ha : env.applyResult with msg | u <;> simp only [ha] at h ⊢
    · simp at h
    · cases files with
      | none => exact applyCore_ok_push env ts _ _ _ h hrem
      | some fs => exact applyCore_ok_push env _ _ _ _ h (by simpa using hrem)
  · simp at h

theorem applyChanges_remoteError (env : Env) (ts : TeleScope) (files : Option (List String))
    (s : St) (m : String)
    (h : (applyChanges env ts files s).err = some (Err.remoteError m)) :
    GitOp.commit (authorString ts.user ts.email) ts.message ∈ (applyChanges env ts files s).ops ∧
    GitOp.headReset ∉ (applyChanges env ts files s).ops := by
  have h1 : GitOp.headReset ∉ (switchBranch env ts.upstream s).ops := fun hm => by
    have := switchBranch_ops_mem env ts.upstream s _ hm
    simp at this
  have h2 : GitOp.headReset ∉ (switchBranch env ts.upstream s).ops ++ [GitOp.stashApply] := by
    simp [List.mem_append, h1]
  simp only [applyChanges] at h ⊢
  rcases hsw : (switchBranch env ts.upstream s).err with _ | e <;> simp only [hsw] at h ⊢
  · rcases ha : env.applyResult with msg | u <;> simp only [ha] at h ⊢
    · simp at h
    · cases files with
      | none => exact applyCore_remoteError env ts _ _ _ m h2 h
      | some fs =>
        have hres := applyCore_remoteError env { ts with reapply := true } fs _ _ m h2 h
        simpa using hres
  · have hk := switchBranch_err_kind env ts.upstream s e hsw
    simp at h
    rw [hk] at h
    simp at h

theorem switchAndRebase_err (env : Env) (ts : TeleScope) (s : St)
    (h : (switchAndRebase env ts s).err.isSome) :
    (switchAndRebase env ts s).st.stashes = s.stashes ∧
    GitOp.stashDrop ∉ (switchAndRebase env ts s).ops := by
  have hsb := switchBranch_stashes env ts.thisbranch s
  have h1 : GitOp.stashDrop ∉ (switchBranch env ts.thisbranch s).ops := fun hm => by
    have := switchBranch_ops_mem env ts.thisbranch s _ hm
    simp at this
  simp only [switchAndRebase] at h ⊢
  rcases hsw : (switchBranch env ts.thisbranch s).err with _ | e <;> simp only [hsw] at h ⊢
  · rcases hnr : ts.norebase <;> simp only [hnr, Bool.false_eq_true, if_true, if_false] at h ⊢
    · rcases hr : env.rebaseResult with msg | u <;> simp only [hr] at h ⊢
      · simp [hsb, h1]
      · rcases dropStashStep_stashes_err env ts _ _ h with ⟨hst, hops⟩
        rw [hst, hops]
        simp [hsb, List.mem_append, h1]
    · rcases dropStashStep_stashes_err env ts _ _ h with ⟨hst, hops⟩
      rw [hst, hops]
      simp [hsb, h1]
  · simp [hsb, h1]

theorem switchAndRebase_drop (env : Env) (ts : TeleScope) (s : St)
    (h : GitOp.stashDrop ∈ (switchAndRebase env ts s).ops) :
    (switchAndRebase env ts s).err = none ∧
    ts.noclear = false ∧
    (∃ pre, (switchAndRebase env ts s).ops = pre ++ [GitOp.stashDrop] ∧
        GitOp.stashDrop ∉ pre ∧
        (ts.norebase = false → GitOp.rebase ts.upstream ∈ pre)) := by
  have h1 : GitOp.stashDrop ∉ (switchBranch env ts.thisbranch s).ops := fun hm => by
    have := switchBranch_ops_mem env ts.thisbranch s _ hm
    simp at this
  simp only [switchAndRebase] at h ⊢
  rcases hsw : (switchBranch env ts.thisbranch s).err with _ | e <;> simp only [hsw] at h ⊢
  · rcases hnr : ts.norebase <;> simp only [hnr, Bool.false_eq_true, if_true, if_false] at h ⊢
    · rcases hr : env.rebaseResult with msg | u <;> simp only [hr] at h ⊢
      · exact absurd h h1
      · have hops0 : GitOp.stashDrop ∉ (switchBranch env ts.thisbranch s).ops ++ [GitOp.rebase ts.upstream] := by
          simp [List.mem_append, h1]
        rcases dropStashStep_drop_mem env ts _ _ hops0 h with ⟨he, hops, hnc⟩
        refine ⟨he, hnc, ⟨(switchBranch env ts.thisbranch s).ops ++ [GitOp.rebase ts.upstream], by rw [hops, List.append_assoc], hops0, ?_⟩⟩
        intro _
        simp [List.mem_append]
    · rcases dropStashStep_drop_mem env ts _ _ h1 h with ⟨he, hops, hnc⟩
      exact ⟨he, hnc, ⟨(switchBranch env ts.thisbranch s).ops, hops, h1, by simp [hnr]⟩⟩
  · exact absurd h h1

theorem switchAndRebase_err_kind (env : Env) (ts : TeleScope) (s : St) (e : Err)
    (h : (switchAndRebase env ts s).err = some e) :
    e = Err.attributeError "super object has no attribute _BranchError__init" ∨
    (∃ m, e = Err.conflictError m) ∨ (∃ m, e = Err.gitCommandError m) := by
  simp only [switchAndRebase] at h
  rcases hsw : (switchBranch env ts.thisbranch s).err with _ | e2 <;> simp only [hsw] at h
  · rcases hnr : ts.norebase <;> simp only [hnr, Bool.false_eq_true, if_true, if_false] at h
    · rcases hr : env.rebaseResult with msg | u <;> simp only [hr] at h
      · simp at h
        exact Or.inr (Or.inl ⟨_, h.symm⟩)
      · rcases dropStashStep_err_kind env ts _ _ _ h with ⟨m, hm⟩
        exact Or.inr (Or.inr ⟨m, hm⟩)
    · rcases dropStashStep_err_kind env ts _ _ _ h with ⟨m, hm⟩
      exact Or.inr (Or.inr ⟨m, hm⟩)
  · simp at h
    rw [← h]
    exact Or.inl (switchBranch_err_kind env ts.thisbranch s e2 hsw)

theorem switchAndRebase_not_mem (env : Env) (ts : TeleScope) (s : St) (o : GitOp)
    (hco : ∀ b, o ≠ GitOp.checkout b) (hrb : ∀ b, o ≠ GitOp.rebase b)
    (hdrop : o ≠ GitOp.stashDrop) :
    o ∉ (switchAndRebase env ts s).ops := by
  have h1 : o ∉ (switchBranch env ts.thisbranch s).ops :=
    fun hm => hco _ (switchBranch_ops_mem env ts.thisbranch s _ hm)
  have hd : ∀ ops, o ∉ ops → o ∉ (dropStashStep env ts (switchBranch env ts.thisbranch s).st ops).ops := by
    intro ops hops hm
    rcases dropStashStep_ops_mem env ts _ ops o hm with hh | hh
    · exact hops hh
    · exact hdrop hh
  simp only [switchAndRebase]
  rcases hsw : (switchBranch env ts.thisbranch s).err with _ | e <;> simp only [hsw]
  · rcases hnr : ts.norebase <;> simp only [hnr, Bool.false_eq_true, if_true, if_false]
    · rcases hr : env.rebaseResult with msg | u <;> simp only [hr]
      · simp [h1]
      · apply hd
        simp [List.mem_append, h1, hrb]
    · exact hd _ h1
  · simp [h1]

theorem applyChanges_ts (env : Env) (ts : TeleScope) (files : Option (List String)) (s : St) :
    (applyChanges env ts files s).ts = ts ∨
    (applyChanges env ts files s).ts = { ts with reapply := true } := by
  simp only [applyChanges]
  rcases hsw : (switchBranch env ts.upstream s).err with _ | e <;> simp only [hsw]
  · rcases ha : env.applyResult with msg | u <;> simp only [ha]
    · simp
    · cases files with
      | none => exact Or.inl (applyCore_ts env ts _ _ _)
      | some fs => exact Or.inr (applyCore_ts env _ _ _ _)
  · simp

end TeleScopePy

namespace TeleScopePy

/-- C1: once stashing has succeeded, every failing run ends with the stash
entry still present and with no stash-drop operation performed, and a
stash-drop operation can occur only as the very last operation of a fully
successful run, with the push present in the trace whenever a remote is
configured and the rebase present whenever rebasing is not skipped. -/
theorem stash_preserved_until_final_drop (env : Env) (ts : TeleScope)
    (files : Option (List String)) (s : St)
    (hstash : (stashChanges env s).err = none) :
    ((run env ts files s).err.isSome →
        (run env ts files s).st.stashes = s.stashes + 1 ∧
        GitOp.stashDrop ∉ (run env ts files s).ops) ∧
    (GitOp.stashDrop ∈ (run env ts files s).ops →
        (run env ts files s).err = none ∧
        ts.noclear = false ∧
        (run env ts files s).ops.getLast? = some GitOp.stashDrop ∧
        (run env ts files s).ops.count GitOp.stashDrop = 1 ∧
        (ts.remote.isSome → GitOp.push ∈ (run env ts files s).ops) ∧
        (ts.norebase = false → GitOp.rebase ts.upstream ∈ (run env ts files s).ops)) := by
  rcases stashChanges_ok env s hstash with ⟨hst1, hops1⟩
  have hnd2 : GitOp.stashDrop ∉ (applyChanges env ts files (stashChanges env s).st).ops :=
    applyChanges_not_mem env ts files _ _ (fun b h => nomatch h) (fun h => nomatch h)
      (fun p h => nomatch h) (fun a m h => nomatch h) (fun h => nomatch h) (fun h => nomatch h)
  have hAst : (applyChanges env ts files (stashChanges env s).st).st.stashes = s.stashes + 1 :=
    (applyChanges_st env ts files _).trans hst1
  rcases h2 : (applyChanges env ts files (stashChanges env s).st).err with _ | e2 <;>
    simp only [run, hstash, h2, hops1]
  · constructor
    · intro herr
      rcases switchAndRebase_err env _ _ herr with ⟨hst3, hnd3⟩
      constructor
      · rw [hst3, hAst]
      · simp [List.mem_append, hnd2, hnd3]
    · intro hmem
      have hmem3 : GitOp.stashDrop ∈
          (switchAndRebase env (applyChanges env ts files (stashChanges env s).st).ts
            (applyChanges env ts files (stashChanges env s).st).st).ops := by
        rcases List.mem_append.mp hmem with hm | hm
        · rcases List.mem_append.mp hm with hm2 | hm2
          · simp at hm2
          · exact absurd hm2 hnd2
        · exact hm
      rcases switchAndRebase_drop env _ _ hmem3 with ⟨hR0, hnc, pre, hpre, hnot, hreb⟩
      have hnc2 : ts.noclear = false := by
        rcases applyChanges_ts env ts files (stashChanges env s).st with hts | hts <;>
          rw [hts] at hnc <;> simpa using hnc
      have hreb2 : ts.norebase = false → GitOp.rebase ts.upstream ∈ pre := by
        rcases applyChanges_ts env ts files (stashChanges env s).st with hts | hts <;>
          rw [hts] at hreb <;> simpa using hreb
      refine ⟨hR0, hnc2, ?_, ?_, ?_, ?_⟩
      · rw [hpre, ← List.append_assoc, List.getLast?_concat]
      · rw [hpre]
        simp [List.count_append, List.count_eq_zero.mpr hnd2, List.count_eq_zero.mpr hnot]
      · intro hrem
        have hp := applyChanges_ok_push env ts files _ h2 hrem
        simp [List.mem_append, hp]
      · intro hnr
        have hr := hreb2 hnr
        have hrmem : GitOp.rebase ts.upstream ∈
            (switchAndRebase env (applyChanges env ts files (stashChanges env s).st).ts
              (applyChanges env ts files (stashChanges env s).st).st).ops := by
          rw [hpre]
          simp [List.mem_append, hr]
        simp [List.mem_append, hrmem]
  · constructor
    · intro _
      refine ⟨hAst, ?_⟩
      simp [List.mem_append, hnd2]
    · intro hmem
      exfalso
      rcases List.mem_append.mp hmem with hm | hm
      · simp at hm
      · exact absurd hm hnd2

end TeleScopePy

namespace TeleScopePy

theorem applyCore_ok_commit (env : Env) (ts2 : TeleScope) (fileList : List String) (st : St)
    (ops2 : List GitOp) (h : (applyCore env ts2 fileList st ops2).err = none) :
    GitOp.commit (authorString ts2.user ts2.email) ts2.message ∈
      (applyCore env ts2 fileList st ops2).ops := by
  rcases haf : addFiles env fileList with ⟨opsA, eA⟩
  cases eA <;> simp only [applyCore, haf] at h ⊢
  · rcases hc : env.commitResult with msg | u <;> simp only [hc] at h ⊢
    · simp at h
    · rcases hrm : ts2.remote with _ | rem <;> simp only [hrm] at h ⊢
      · exact reapplyStep_ops_sub env ts2 st _ _ (by simp)
      · rcases hp : env.pushResult with msg | u2 <;> simp only [hp] at h ⊢
        · simp at h
        · exact reapplyStep_ops_sub env ts2 st _ _ (by simp)
  · simp at h

theorem applyChanges_ok_commit (env : Env) (ts : TeleScope) (files : Option (List String))
    (s : St) (h : (applyChanges env ts files s).err = none) :
    GitOp.commit (authorString ts.user ts.email) ts.message ∈
      (applyChanges env ts files s).ops := by
  simp only [applyChanges] at h ⊢
  rcases hsw : (switchBranch env ts.upstream s).err with _ | e <;> simp only [hsw] at h ⊢
  · rcases ha : env.applyResult with msg | u <;> simp only [ha] at h ⊢
    · simp at h
    · cases files with
      | none => exact applyCore_ok_commit env ts _ _ _ h
      | some fs =>
        have hres := applyCore_ok_commit env { ts with reapply := true } fs _ _ h
        simpa using hres
  · simp at h

/-- C5: the `pull` flag is dead: no run of the workflow ever performs a pull
operation, whatever the instance flags (including `pull = true`) and
whatever the git environment — `pullFromRemote` is never invoked. -/
theorem run_never_pulls (env : Env) (ts : TeleScope) (files : Option (List String))
    (s : St) (r : String) : GitOp.pull r ∉ (run env ts files s).ops := by
  have h1 := stashChanges_ops_mem env s
  have h2 : GitOp.pull r ∉ (applyChanges env ts files (stashChanges env s).st).ops :=
    applyChanges_not_mem env ts files _ _ (fun b h => nomatch h) (fun h => nomatch h)
      (fun p h => nomatch h) (fun a m h => nomatch h) (fun h => nomatch h) (fun h => nomatch h)
  have h3 := switchAndRebase_not_mem env (applyChanges env ts files (stashChanges env s).st).ts
      (applyChanges env ts files (stashChanges env s).st).st (GitOp.pull r)
      (fun b h => nomatch h) (fun b h => nomatch h) (fun h => nomatch h)
  rcases hs : (stashChanges env s).err with _ | e <;> simp only [run, hs]
  · rcases h2e : (applyChanges env ts files (stashChanges env s).st).err with _ | e2 <;>
      simp only [h2e]
    · intro hm
      rcases List.mem_append.mp hm with hmm | hmm
      · rcases List.mem_append.mp hmm with hm2 | hm2
        · have hx := h1 _ hm2
          simp at hx
        · exact h2 hm2
      · exact h3 hmm
    · intro hm
      rcases List.mem_append.mp hm with hmm | hmm
      · have hx := h1 _ hmm
        simp at hx
      · exact h2 hmm
  · intro hm
    have hx := h1 _ hm
    simp at hx

/-- C7: if the run fails with the push-stage RemoteError, the commit that was
just created is in the trace and nothing afterwards undoes it: no stash
drop, no index reset, no force checkout, and the stash entry is still
present. -/
theorem push_failure_keeps_commit_and_stash (env : Env) (ts : TeleScope)
    (files : Option (List String)) (s : St) (m : String)
    (herr : (run env ts files s).err = some (Err.remoteError m)) :
    GitOp.commit (authorString ts.user ts.email) ts.message ∈ (run env ts files s).ops ∧
    (run env ts files s).st.stashes = s.stashes + 1 ∧
    GitOp.stashDrop ∉ (run env ts files s).ops ∧
    GitOp.headReset ∉ (run env ts files s).ops ∧
    GitOp.forceCheckout ∉ (run env ts files s).ops := by
  have hnd : GitOp.stashDrop ∉ (applyChanges env ts files (stashChanges env s).st).ops :=
    applyChanges_not_mem env ts files _ _ (fun b h => nomatch h) (fun h => nomatch h)
      (fun p h => nomatch h) (fun a m2 h => nomatch h) (fun h => nomatch h) (fun h => nomatch h)
  have hfc : GitOp.forceCheckout ∉ (applyChanges env ts files (stashChanges env s).st).ops :=
    applyChanges_not_mem env ts files _ _ (fun b h => nomatch h) (fun h => nomatch h)
      (fun p h => nomatch h) (fun a m2 h => nomatch h) (fun h => nomatch h) (fun h => nomatch h)
  rcases hs : (stashChanges env s).err with _ | e
  · rcases stashChanges_ok env s hs with ⟨hst1, hops1⟩
    rcases h2 : (applyChanges env ts files (stashChanges env s).st).err with _ | e2
    · exfalso
      simp only [run, hs, h2] at herr
      rcases switchAndRebase_err_kind env _ _ _ herr with hk | ⟨m2, hk⟩ | ⟨m2, hk⟩ <;>
        simp at hk
    · have he2 : e2 = Err.remoteError m := by
        simp only [run, hs, h2] at herr
        simpa using herr
      rcases applyChanges_remoteError env ts files (stashChanges env s).st m (he2 ▸ h2) with
        ⟨hc, hnr⟩
      simp only [run, hs, h2, hops1]
      refine ⟨?_, ?_, ?_, ?_, ?_⟩
      · simp [List.mem_append, hc]
      · exact (applyChanges_st env ts files _).trans hst1
      · simp [List.mem_append, hnd]
      · simp [List.mem_append, hnr]
      · simp [List.mem_append, hfc]
  · exfalso
    simp only [run, hs] at herr
    simp at herr
    rcases stashChanges_err_kind env s e hs with ⟨m2, hm⟩
    rw [hm] at herr
    simp at herr

end TeleScopePy

namespace TeleScopePy

/-- C2: the exit-code taxonomy is not honoured for phase failures: with the
default command line and a failing `git stash`, the workflow raises
`StashError`, but the except branch of the main script only writes the
message and never calls `sys.exit`, so the process exits 0 — not
`ExitStatus.STASHERROR` (2).  Only the two startup checks use taxonomy
codes. -/
theorem phase_failure_exit_code_zero :
    TeleScope.init PyClass.gitRepo "feature" defaultReader "master" (some "origin")
        none none none false false false = Except.ok tsMainDefault ∧
    (run envStashFail tsMainDefault (some []) st0).err = some (Err.stashError "stash failed") ∧
    teleScopeMain mEnvStashFail argsDefault = 0 ∧
    ExitStatus.STASHERROR = 2 ∧ ExitStatus.SUCCESS = 0 := by
  refine ⟨rfl, by decide, by decide, rfl, rfl⟩

/-- C3: an empty but present file selection is treated as a partial
selection, not as all changes: `applyChanges (some [])` — exactly what the
main script passes when no files are given — sets `reapply := true` and
stages nothing at all, while only the absent selection (`none`) stages the
working-tree root and leaves `reapply` false. -/
theorem empty_selection_sets_reapply_and_stages_nothing :
    ((applyChanges envAllOk tsFull (some []) st0).ts.reapply = true ∧
      ∀ p, GitOp.add p ∉ (applyChanges envAllOk tsFull (some []) st0).ops) ∧
    ((applyChanges envAllOk tsFull none st0).ts.reapply = false ∧
      GitOp.add envAllOk.workingDir ∈ (applyChanges envAllOk tsFull none st0).ops) := by
  have hops : (applyChanges envAllOk tsFull (some []) st0).ops =
      [GitOp.checkout "master", GitOp.stashApply,
       GitOp.commit (some "Ann <ann@example.com>") (some "msg"), GitOp.push,
       GitOp.headReset] := by decide
  refine ⟨⟨by decide, ?_⟩, by decide, by decide⟩
  intro p
  rw [hops]
  simp

/-- C4 counterexample: with neither name nor email resolved, there is no
identity-missing failure before the gateway call: the author string is
`None` and the gateway commit is still invoked (and here succeeds). -/
theorem missing_identity_still_commits :
    authorString none none = none ∧
    GitOp.commit none (some "msg") ∈ (applyChanges envAllOk tsNoIdentity none st0).ops ∧
    (applyChanges envAllOk tsNoIdentity none st0).err = none := by
  refine ⟨rfl, ?_, ?_⟩ <;> decide

/-- C4 (amended): the author string is "Name <email>" when both are present
and the single value verbatim when exactly one is present; when neither is
present it is `None`, and the commit operation of the gateway is still
invoked with that `None` author whenever the commit stage is reached — no
identity-missing check exists. -/
theorem author_string_cases (u e : String) (env : Env) (ts : TeleScope)
    (files : Option (List String)) (s : St)
    (hu : ts.user = none) (he : ts.email = none)
    (hok : (applyChanges env ts files s).err = none) :
    authorString (some u) (some e) = some (u ++ " <" ++ e ++ ">") ∧
    authorString (some u) none = some u ∧
    authorString none (some e) = some e ∧
    authorString none none = none ∧
    GitOp.commit none ts.message ∈ (applyChanges env ts files s).ops := by
  refine ⟨rfl, rfl, rfl, rfl, ?_⟩
  have hc := applyChanges_ok_commit env ts files s hok
  rw [hu, he] at hc
  exact hc

theorem author_string_cases_witness :
    tsNoIdentity.user = none ∧ tsNoIdentity.email = none ∧
    (applyChanges envAllOk tsNoIdentity none st0).err = none ∧
    (authorString (some "Ann") (some "a@b") = some ("Ann" ++ " <" ++ "a@b" ++ ">") ∧
      authorString (some "Ann") none = some "Ann" ∧
      authorString none (some "a@b") = some "a@b" ∧
      authorString none none = none ∧
      GitOp.commit none tsNoIdentity.message ∈
        (applyChanges envAllOk tsNoIdentity none st0).ops) :=
  ⟨rfl, rfl, by decide,
    author_string_cases "Ann" "a@b" envAllOk tsNoIdentity none st0 rfl rfl (by decide)⟩

/-- C6: the partial-migration backout is broken: in an otherwise fully
successful run that selected one file, after the commit and the push the
index is reset, but the force checkout that should discard the remaining
working changes never happens — `self.active_branch` does not exist on the
instance, so an `AttributeError` aborts the workflow instead. -/
theorem backout_step_crashes :
    (run envAllOk tsFull (some ["a.txt"]) st0).err =
      some (Err.attributeError "TeleScope instance has no attribute active_branch") ∧
    GitOp.commit (some "Ann <ann@example.com>") (some "msg") ∈
      (run envAllOk tsFull (some ["a.txt"]) st0).ops ∧
    GitOp.push ∈ (run envAllOk tsFull (some ["a.txt"]) st0).ops ∧
    GitOp.headReset ∈ (run envAllOk tsFull (some ["a.txt"]) st0).ops ∧
    GitOp.forceCheckout ∉ (run envAllOk tsFull (some ["a.txt"]) st0).ops ∧
    GitOp.stashDrop ∉ (run envAllOk tsFull (some ["a.txt"]) st0).ops := by
  refine ⟨?_, ?_, ?_, ?_, ?_, ?_⟩ <;> decide

/-- C8: switching to a branch that does not exist does not fail with a
branch-error: the `BranchError` constructor itself is broken (it calls the
non-existent `__init` on `super`), so the attempt raises `AttributeError`
instead. -/
theorem branch_not_found_raises_attribute_error :
    (switchBranch envNoBranches "missing" st0).err =
      some (Err.attributeError "super object has no attribute _BranchError__init") ∧
    ∀ m, (switchBranch envNoBranches "missing" st0).err ≠ some (Err.branchError m) := by
  refine ⟨by decide, ?_⟩
  intro m hm
  have h1 : (switchBranch envNoBranches "missing" st0).err =
      some (Err.attributeError "super object has no attribute _BranchError__init") := by decide
  rw [h1] at hm
  simp at hm

/-- C9: an explicitly supplied committer name or email always wins over the
repository configuration; the config reader is consulted only for an
argument that is `None`. -/
theorem explicit_identity_overrides_config (reader : ConfigReader) (ab up : String)
    (rem : Option String) (u e : String) (msg : Option String) (nr nc pl : Bool) :
    (∃ ts, TeleScope.init PyClass.gitRepo ab reader up rem (some u) (some e) msg nr nc pl =
        Except.ok ts ∧ ts.user = some u ∧ ts.email = some e) ∧
    (∃ ts, TeleScope.init PyClass.gitRepo ab reader up rem none none msg nr nc pl =
        Except.ok ts ∧
        ts.user = (if reader.hasOption "user" "name"
          then some (reader.getValue "user" "name") else none) ∧
        ts.email = (if reader.hasOption "user" "email"
          then some (reader.getValue "user" "email") else none)) := by
  have hsplit1 : pySplit "user.name" (Char.ofNat 46) = ["user", "name"] := by decide
  have hsplit2 : pySplit "user.email" (Char.ofNat 46) = ["user", "email"] := by decide
  constructor
  · refine ⟨_, rfl, ?_, ?_⟩ <;> simp [TeleScope.init, getOption, hsplit1, hsplit2]
  · refine ⟨_, rfl, ?_, ?_⟩ <;> simp [TeleScope.init, getOption, hsplit1, hsplit2]

/-- C10: a `repo` argument whose class is not exactly `git.Repo` — including
any proper subclass — is rejected with a `TypeError` by the very first
statement of the constructor; the result does not depend on the active
branch or the config reader, since nothing else is read. -/
theorem wrong_repo_class_type_error (repoClass : PyClass) (h : repoClass ≠ PyClass.gitRepo)
    (ab : String) (reader : ConfigReader) (up : String) (rem : Option String)
    (u e msg : Option String) (nr nc pl : Bool) :
    TeleScope.init repoClass ab reader up rem u e msg nr nc pl =
      Except.error (Err.typeError "repo must be a Git repository object.") := by
  unfold TeleScope.init
  simp [h]

theorem wrong_repo_class_type_error_witness :
    PyClass.gitRepoSubclass ≠ PyClass.gitRepo ∧
    TeleScope.init PyClass.gitRepoSubclass "feature" defaultReader "master" (some "origin")
        none none none false false false =
      Except.error (Err.typeError "repo must be a Git repository object.") :=
  ⟨by decide, wrong_repo_class_type_error PyClass.gitRepoSubclass (by decide) "feature"
    defaultReader "master" (some "origin") none none none false false false⟩

end TeleScopePy

namespace TeleScopePy

theorem stash_preserved_until_final_drop_witness :
    (stashChanges envAllOk st0).err = none ∧
    (((run envAllOk tsFull none st0).err.isSome →
        (run envAllOk tsFull none st0).st.stashes = st0.stashes + 1 ∧
        GitOp.stashDrop ∉ (run envAllOk tsFull none st0).ops) ∧
      (GitOp.stashDrop ∈ (run envAllOk tsFull none st0).ops →
        (run envAllOk tsFull none st0).err = none ∧
        tsFull.noclear = false ∧
        (run envAllOk tsFull none st0).ops.getLast? = some GitOp.stashDrop ∧
        (run envAllOk tsFull none st0).ops.count GitOp.stashDrop = 1 ∧
        (tsFull.remote.isSome → GitOp.push ∈ (run envAllOk tsFull none st0).ops) ∧
        (tsFull.norebase = false →
          GitOp.rebase tsFull.upstream ∈ (run envAllOk tsFull none st0).ops))) :=
  ⟨by decide, stash_preserved_until_final_drop envAllOk tsFull none st0 (by decide)⟩

theorem push_failure_keeps_commit_and_stash_witness :
    (run envPushFail tsFull none st0).err =
      some (Err.remoteError "Problem with push:\nrejected") ∧
    (GitOp.commit (authorString tsFull.user tsFull.email) tsFull.message ∈
        (run envPushFail tsFull none st0).ops ∧
      (run envPushFail tsFull none st0).st.stashes = st0.stashes + 1 ∧
      GitOp.stashDrop ∉ (run envPushFail tsFull none st0).ops ∧
      GitOp.headReset ∉ (run envPushFail tsFull none st0).ops ∧
      GitOp.forceCheckout ∉ (run envPushFail tsFull none st0).ops) :=
  ⟨by decide, push_failure_keeps_commit_and_stash envPushFail tsFull none st0
    "Problem with push:\nrejected" (by decide)⟩

end TeleScopePy
